import Mathlib

/-!
Verification of the geminiInChrome agent core: a shallow embedding of the
session/history manager (`src/cli.ts`, `Session`), the orchestrator's
tool-call batch loop (`CLI.processResponse`), the retry/backoff helper
(`withRetry`), the tool router (`src/tools.ts`, `executeTool`), the browser
connection manager (`src/chromeClient.ts`, `ensureConnected`, `click`), and
the `edit_file` tool (`editFileTool`).

External effects (the CDP transport, the Gemini API, the file system and the
in-page DOM) are abstracted as explicit environments passed to the embedded
functions; all in-repository control flow and string construction is
modelled directly from the TypeScript source.
-/

/-! ## Generic string / list helpers mirroring JavaScript primitives -/

/-- Substring test on character lists: `pat` occurs contiguously in the list.
Mirrors JavaScript `String.prototype.includes` (every string contains `""`). -/
def isSubstrL (pat : List Char) : List Char → Bool
  | [] => pat.isEmpty
  | c :: rest => pat.isPrefixOf (c :: rest) || isSubstrL pat rest

/-- JavaScript `s.includes(pat)`. -/
def containsStr (s pat : String) : Bool := isSubstrL pat.data s.data

/-- JavaScript `s.toLowerCase()`, as a character-wise map. -/
def jsToLower (s : String) : String := ⟨s.data.map Char.toLower⟩

/-- JavaScript `s.trim()`: strip whitespace from both ends. -/
def jsTrim (s : String) : String :=
  ⟨(((s.data.dropWhile Char.isWhitespace).reverse).dropWhile Char.isWhitespace).reverse⟩

/-- JavaScript `s.slice(0, n)`. -/
def strTake (n : Nat) (s : String) : String := ⟨s.data.take n⟩

/-- The last `n` elements of a list: JavaScript `arr.slice(-n)` for `n > 0`. -/
def lastN (n : Nat) (l : List α) : List α := l.drop (l.length - n)

/-- JavaScript `arr.slice(-n)` for a non-negative `n`, including the `n = 0`
edge case: `-0 === 0` in JavaScript, so `arr.slice(-0)` is `arr.slice(0)`,
which returns the whole array, not the last zero elements. -/
def sliceNeg (n : Nat) (l : List α) : List α :=
  if n = 0 then l else l.drop (l.length - n)

/-! ## Session data model (`src/session.ts`) -/

/-- Conversation entry roles, from the `LogEntry` interface in `session.ts`. -/
inductive Role
  | user
  | model
  | tool_call
  | tool_result
  | system
deriving DecidableEq, Repr

/-- One event of the append-only session log (`LogEntry` in `session.ts`);
`metadata` models the optional tool tag attached to tool results. -/
structure LogEntry where
  timestamp : String
  role : Role
  content : String
  metadata : Option String := none
deriving DecidableEq, Repr

/-- `Session.recentEntries`: at most `contextTurns * 2` most recent entries,
with the very first entry prepended when it is a system entry.  The source
computes the tail with `this.entries.slice(-maxEntries)`, hence `sliceNeg`. -/
def recentEntries (contextTurns : Nat) (entries : List LogEntry) : List LogEntry :=
  let maxEntries := contextTurns * 2
  if entries.length ≤ maxEntries then entries
  else
    (match entries.head? with
     | some e => if e.role = Role.system then [e] else []
     | none => []) ++ sliceNeg maxEntries entries

/-- Modelled from the spec: the reconstruction rule as the specification
states it — when the log is longer than `contextTurns × 2`, the result is the
first entry (when its role is system) followed by the last
`contextTurns × 2` entries.  Used to compare against `recentEntries`. -/
def claimRecentEntries (contextTurns : Nat) (entries : List LogEntry) : List LogEntry :=
  let maxEntries := contextTurns * 2
  if entries.length ≤ maxEntries then entries
  else
    (match entries.head? with
     | some e => if e.role = Role.system then [e] else []
     | none => []) ++ lastN maxEntries entries

/-- The two roles accepted by the Gemini conversation transport. -/
inductive GRole
  | user
  | model
deriving DecidableEq, Repr

/-- One role-tagged block of the Gemini-facing history
(an element of the array built by `Session.toGeminiHistory`). -/
structure GBlock where
  role : GRole
  parts : List String
deriving DecidableEq, Repr

/-- The per-entry mapping of `Session.toGeminiHistory`: user and model
entries pass through, `tool_call` entries become model blocks, `tool_result`
entries become user blocks, system entries are omitted. -/
def entryToBlocks (e : LogEntry) : List GBlock :=
  match e.role with
  | Role.user => [⟨GRole.user, [e.content]⟩]
  | Role.model => [⟨GRole.model, [e.content]⟩]
  | Role.tool_call => [⟨GRole.model, [("[Tool Call] ") ++ e.content]⟩]
  | Role.tool_result => [⟨GRole.user, [("[Tool Result] ") ++ e.content]⟩]
  | Role.system => []

/-- The merge pass of `Session.toGeminiHistory`: scanning left to right,
a block whose role equals the role of the previously accumulated block has
its parts appended onto that block instead of starting a new one. -/
def mergeBlocks : List GBlock → List GBlock
  | [] => []
  | [b] => [b]
  | b1 :: b2 :: rest =>
    if b1.role = b2.role then mergeBlocks (⟨b1.role, b1.parts ++ b2.parts⟩ :: rest)
    else b1 :: mergeBlocks (b2 :: rest)
termination_by l => l.length

/-- No two adjacent blocks share a role. -/
def rolesAlternate : List GBlock → Bool
  | [] => true
  | [_] => true
  | a :: b :: rest => (decide (a.role ≠ b.role)) && rolesAlternate (b :: rest)

/-- The trailing-pop pass of `Session.toGeminiHistory`:
`while (merged.length > 0 && merged[merged.length - 1].role === "user") merged.pop()`. -/
def dropTrailingUsers (l : List GBlock) : List GBlock :=
  (l.reverse.dropWhile (fun b => b.role == GRole.user)).reverse

/-- `Session.toGeminiHistory`: map recent entries to blocks, drop leading
model blocks, merge consecutive same-role blocks, then drop trailing user
blocks. -/
def toGeminiHistory (contextTurns : Nat) (entries : List LogEntry) : List GBlock :=
  dropTrailingUsers
    (mergeBlocks
      (((recentEntries contextTurns entries).map entryToBlocks).flatten.dropWhile
        (fun b => b.role == GRole.model)))

/-! ## Rate-limit retry helper (`withRetry` in `src/cli.ts`) -/

/-- Split a character list into its maximal leading run of decimal digits
and the remainder. -/
def takeDigits : List Char → List Char × List Char
  | [] => ([], [])
  | c :: rest =>
    if c.isDigit then
      let pr := takeDigits rest
      (c :: pr.1, pr.2)
    else ([], c :: rest)

/-- Match the tail pattern of the source regex, the fragment
matching digits, an optional dot, further digits and a final letter s
(case-insensitive), at the head of the list; returns the capture group,
which is only the leading digit run.  Backtracking never helps here because
the final letter is not a digit, so the greedy digit runs are forced. -/
def matchNumS (l : List Char) : Option (List Char) :=
  let pr := takeDigits l
  if pr.1 = [] then none
  else
    let afterFrac :=
      match pr.2 with
      | '.' :: rest2 => (takeDigits rest2).2
      | rest2 => rest2
    match afterFrac with
    | c :: _ => if c.toLower = 's' then some pr.1 else none
    | [] => none

/-- The lazy `.*?` scan of the source regex: find the earliest point, not
crossing a line terminator, where the number-then-s fragment matches. -/
def scanNumS : List Char → Option (List Char)
  | [] => none
  | c :: rest =>
    match matchNumS (c :: rest) with
    | some d => some d
    | none => if c = '\n' || c = '\r' then none else scanNumS rest

/-- Case-insensitive literal-prefix test. -/
def startsWithCI : List Char → List Char → Bool
  | [], _ => true
  | _ :: _, [] => false
  | p :: ps, c :: cs => (p.toLower = c.toLower) && startsWithCI ps cs

/-- The characters of the literal part of the retry regex. -/
def retryChars : List Char := ("retry").data

/-- Leftmost-match search for the source regex
`/retry.*?(\d+)\.?\d*s/i` over the message text: at each position where the
literal `retry` matches (case-insensitively), lazily scan forward within the
line for the numeric fragment; the first overall success yields the capture
group (the integer digit run only). -/
def findRetryDelay : List Char → Option (List Char)
  | [] => none
  | c :: rest =>
    if startsWithCI retryChars (c :: rest) then
      match scanNumS ((c :: rest).drop 5) with
      | some d => some d
      | none => findRetryDelay rest
    else findRetryDelay rest

/-- Decimal value of a digit run (JavaScript `Number` on an all-digit string). -/
def digitsToNat (l : List Char) : Nat :=
  l.foldl (fun acc c => acc * 10 + (c.toNat - 48)) 0

/-- The parsed retry delay of `withRetry`: the capture group of the first
regex match, as a number.  The capture group `(\d+)` holds only the integer
part of the delay, so `Math.ceil` applied to it is the identity. -/
def parseRetryDelay (msg : String) : Option Nat :=
  (findRetryDelay msg.data).map digitsToNat

/-- `withRetry`'s rate-limit detection:
the message contains `429`, `quota` or `Resource exhausted`. -/
def isRateLimitMsg (msg : String) : Bool :=
  containsStr msg ("429") || containsStr msg ("quota") ||
    containsStr msg ("Resource exhausted")

/-- The wait (in seconds) `withRetry` computes before the next attempt:
`Math.ceil(Number(retryMatch[1])) + 2` when the regex matched (the capture
is an integer digit run, so the ceiling is the identity), else the linear
backoff `10 * (attempt + 1)`. -/
def retryWaitSec (msg : String) (attempt : Nat) : Nat :=
  match parseRetryDelay msg with
  | some n => n + 2
  | none => 10 * (attempt + 1)

/-- Concrete rate-limit message carrying the fractional delay from the
spec's scenario. -/
def msg429 : String := "429 quota exceeded. Please retry in 7.5s."

/-! ## Orchestrator tool-call batch (`CLI.processResponse` in `src/cli.ts`) -/

/-- One function call of a model response (`response.calls` element). -/
structure ToolCall where
  name : String
deriving DecidableEq, Repr

/-- One element of the `functionResults` array accumulated by
`processResponse`: the tool name and its textual result
(`{ name, response: { result } }` in the source). -/
structure FunctionResult where
  name : String
  result : String
deriving DecidableEq, Repr

/-- The sequential tool-call loop of `processResponse`.  `flag j` is the
value of the `interrupted` flag observed at the j-th interrupt checkpoint
(the check before executing call j; checkpoint `calls.length` is the check
before sending results back).  `runTool j c` is the textual result the tool
router returns for call `c` executed at step j.  Returns the accumulated
function results of the executed calls and whether the loop ran to
completion (`false` when an interrupt checkpoint fired mid-batch). -/
def execBatch (flag : Nat → Bool) (runTool : Nat → ToolCall → String) :
    Nat → List ToolCall → List FunctionResult × Bool
  | _, [] => ([], true)
  | j, c :: rest =>
    if flag j then ([], false)
    else
      let pr := execBatch flag runTool (j + 1) rest
      (⟨c.name, runTool j c⟩ :: pr.1, pr.2)

/-- JSON escaping of one character, mirroring `JSON.stringify` on the
common cases the tool results contain. -/
def jsonEscapeChar (c : Char) : List Char :=
  if c = '"' then ['\\', '"']
  else if c = '\\' then ['\\', '\\']
  else if c = '\n' then ['\\', 'n']
  else if c = '\r' then ['\\', 'r']
  else if c = '\t' then ['\\', 't']
  else [c]

/-- `JSON.stringify` of a string value: the escaped text in double quotes. -/
def jsonEncodeString (s : String) : String :=
  ⟨'"' :: ((s.data.map jsonEscapeChar).flatten ++ ['"'])⟩

/-- The compaction threshold `CLI.COMPACT_THRESHOLD`. -/
def compactThreshold : Nat := 12

/-- The action summary block of the compaction continuation message:
`this.completedActions.slice(-20).join("\n- ")`, wrapped in its template
when non-empty (JavaScript string truthiness). -/
def actionSummary (completedActions : List String) : String :=
  let recentActions := String.intercalate ("\n- ") (lastN 20 completedActions)
  if recentActions = "" then ""
  else ("\n\nActions completed so far:\n- ") ++ recentActions ++
    "\n\nDO NOT repeat actions on pages/posts you already visited. Move on to NEW posts."

/-- The continuation message `processResponse` sends to the fresh chat after
compaction, built exactly as the source template concatenation;
`lastFr` is `functionResults[functionResults.length - 1]` and the snippet is
`JSON.stringify(lastToolResult.response.result || "").slice(0, 500)`
(for a string value, `x || ""` is the identity). -/
def continuationMsg (wd task : String) (lastFr : FunctionResult)
    (completedActions : List String) (memoryCtx : String) : String :=
  "[Working directory: " ++ wd ++
    "]\n\n[CONTEXT COMPACTED — Previous conversation was reset to save tokens.]\n\nYour original task: " ++
    task ++ "\n\nThe last tool you used was \"" ++ lastFr.name ++
    "\" which returned: " ++ strTake 500 (jsonEncodeString lastFr.result) ++
    actionSummary completedActions ++ memoryCtx ++
    "\n\nContinue working on the task. Read the current page state if needed and keep going."

/-- The effect of the compaction branch: the chat is restarted with the
empty history (`this.chat = this.gemini.startChat([])`) and the continuation
message is sent to it. -/
structure CompactAction where
  newHistory : List GBlock
  message : String
deriving DecidableEq, Repr

/-- The observable outcome of one `processResponse` pass over a function-call
response: the function results of the calls actually executed, the results
sent back to the model (none when an interrupt checkpoint fired), the
compaction action when the threshold was reached, and the new value of
`toolCallCount`. -/
structure TurnStep where
  executed : List FunctionResult
  sentResults : Option (List FunctionResult)
  compaction : Option CompactAction
  newCount : Nat
deriving DecidableEq, Repr

/-- The function-call path of `processResponse`: run the batch loop; on an
interrupt checkpoint return without sending anything; otherwise add
`calls.length` to `toolCallCount` and, at or above `COMPACT_THRESHOLD`,
send the pending results, reset the counter, restart the chat with empty
history and build the continuation message from the last function result
(the empty-batch compaction case cannot send a continuation: indexing
`functionResults[length - 1]` has no value to build the message from). -/
def processCallBatch (flag : Nat → Bool) (runTool : Nat → ToolCall → String)
    (count : Nat) (calls : List ToolCall) (wd task : String)
    (completedActions : List String) (memoryCtx : String) : TurnStep :=
  let pr := execBatch flag runTool 0 calls
  if !pr.2 then ⟨pr.1, none, none, count⟩
  else if flag calls.length then ⟨pr.1, none, none, count⟩
  else
    let count' := count + calls.length
    if compactThreshold ≤ count' then
      match pr.1.getLast? with
      | some lastFr =>
        ⟨pr.1, some pr.1,
          some ⟨[], continuationMsg wd task lastFr completedActions memoryCtx⟩, 0⟩
      | none => ⟨pr.1, some pr.1, none, 0⟩
    else ⟨pr.1, some pr.1, none, count'⟩

/-! ## Tool router (`executeTool` in `src/tools.ts`) -/

/-- A browser tab descriptor (`TabInfo` in `chromeClient.ts`). -/
structure TabInfo where
  id : String
  title : String
  url : String
deriving DecidableEq, Repr

/-- Outcome of one underlying tool action: a returned string or a thrown
error message. -/
inductive ToolOutcome
  | ok (s : String)
  | thrown (msg : String)
deriving DecidableEq, Repr

/-- The argument record a model function call carries, with the fields the
dispatcher reads (`args.<field> as ...` casts in the source; absent fields
are `none`). -/
structure ToolArgs where
  tabIndex : Option Nat := none
  url : Option String := none
  target : Option String := none
  text : Option String := none
  direction : Option String := none
  amount : Option Nat := none
  key : Option String := none
  ms : Option Nat := none
  filename : Option String := none
  path : Option String := none
  offset : Option Nat := none
  limit : Option Nat := none
  content : Option String := none
  old_string : Option String := none
  new_string : Option String := none
  recursive : Option Bool := none
  pattern : Option String := none
  file_pattern : Option String := none
  command : Option String := none
  cwd : Option String := none
deriving DecidableEq, Repr

/-- The effectful operations `executeTool` dispatches to: the
`ChromeClient` methods and the file/shell tool implementations, each of
which may return a string or throw.  The screenshot action receives the raw
optional filename (the timestamp default and path resolution are folded into
the environment, being clock/filesystem effects). -/
structure ToolEnv where
  listTabs : Except String (List TabInfo)
  attach : Option Nat → ToolOutcome
  navigate : Option String → ToolOutcome
  getPageText : ToolOutcome
  screenshot : Option String → ToolOutcome
  click : Option String → ToolOutcome
  typeText : Option String → Option String → ToolOutcome
  scroll : Option String → Option Nat → ToolOutcome
  pressKey : Option String → ToolOutcome
  waitMs : Option Nat → ToolOutcome
  readFile : Option String → Option Nat → Option Nat → ToolOutcome
  writeFile : Option String → Option String → ToolOutcome
  editFile : Option String → Option String → Option String → ToolOutcome
  listFiles : Option String → Option Bool → ToolOutcome
  searchFiles : Option String → Option String → Option String → ToolOutcome
  runCommand : Option String → Option String → ToolOutcome

/-- The tab-list formatting of the `chrome_list_tabs` arm:
`[i] title\n    url` entries joined by blank lines. -/
def formatTabs (tabs : List TabInfo) : String :=
  String.intercalate ("\n\n")
    (tabs.enum.map (fun p => "[" ++ toString p.1 ++ "] " ++ p.2.title ++ "\n    " ++ p.2.url))

/-- The names `executeTool` recognizes (the cases of its switch). -/
def knownToolNames : List String :=
  ["chrome_list_tabs", "chrome_attach", "chrome_navigate", "chrome_get_page_text",
   "chrome_screenshot", "chrome_click", "chrome_type", "chrome_scroll",
   "chrome_press_key", "chrome_wait",
   "read_file", "write_file", "edit_file", "list_files", "search_files", "run_command"]

/-- The body of `executeTool`'s try block: dispatch on the tool name,
returning the string result or propagating the thrown error; the default
arm returns the `Unknown tool` string (it cannot throw).  The `chrome_wait`
arm clamps `ms` with `Math.min(args.ms, 30000)` before calling the client. -/
def dispatchTool (env : ToolEnv) (name : String) (args : ToolArgs) : ToolOutcome :=
  if name = "chrome_list_tabs" then
    match env.listTabs with
    | Except.error m => ToolOutcome.thrown m
    | Except.ok tabs =>
      if tabs.isEmpty then ToolOutcome.ok ("No tabs found.")
      else ToolOutcome.ok (formatTabs tabs)
  else if name = "chrome_attach" then env.attach args.tabIndex
  else if name = "chrome_navigate" then env.navigate args.url
  else if name = "chrome_get_page_text" then env.getPageText
  else if name = "chrome_screenshot" then env.screenshot args.filename
  else if name = "chrome_click" then env.click args.target
  else if name = "chrome_type" then env.typeText args.target args.text
  else if name = "chrome_scroll" then env.scroll args.direction args.amount
  else if name = "chrome_press_key" then env.pressKey args.key
  else if name = "chrome_wait" then env.waitMs (args.ms.map (fun m => min m 30000))
  else if name = "read_file" then env.readFile args.path args.offset args.limit
  else if name = "write_file" then env.writeFile args.path args.content
  else if name = "edit_file" then env.editFile args.path args.old_string args.new_string
  else if name = "list_files" then env.listFiles args.path args.recursive
  else if name = "search_files" then env.searchFiles args.pattern args.path args.file_pattern
  else if name = "run_command" then env.runCommand args.command args.cwd
  else ToolOutcome.ok (("Unknown tool: ") ++ name)

/-- `executeTool`: the try/catch wrapper around the dispatch — a thrown
error is caught and rendered as `Tool error (<toolName>): <message>`; the
function always returns a string (its promise never rejects). -/
def executeTool (env : ToolEnv) (name : String) (args : ToolArgs) : String :=
  match dispatchTool env name args with
  | ToolOutcome.ok s => s
  | ToolOutcome.thrown m => ("Tool error (") ++ name ++ "): " ++ m

/-! ## Browser connection manager (`ChromeClient.ensureConnected`) -/

/-- The connection state of `ChromeClient`: whether `this.client` is
non-null, and the cached `this.currentTab`. -/
structure ChromeState where
  connected : Bool
  currentTab : Option TabInfo
deriving DecidableEq, Repr

/-- The CDP-transport behaviour `ensureConnected` observes: whether the
liveness probe (`Runtime.evaluate({ expression: "1" })`) succeeds, the
outcome of re-listing the tabs, and the outcome of connecting to a given
target id (including enabling the domains and installing the dialog
handler). -/
structure CdpEnv where
  probeOk : Bool
  listTabsResult : Except String (List TabInfo)
  connect : String → Except String Unit

/-- Result of `ensureConnected`: a live connection with the updated client
state, or a thrown error together with the state the method leaves behind. -/
inductive EnsureResult
  | ok (st : ChromeState)
  | err (st : ChromeState) (msg : String)
deriving DecidableEq, Repr

/-- `ChromeClient.ensureConnected`: fail when detached; probe the existing
connection; on probe failure re-list tabs, look the previous tab up by id,
fall back to the first listed tab, reconnect, and on any reconnection
failure clear `client`/`currentTab` and throw the reconnection error. -/
def ensureConnected (env : CdpEnv) (st : ChromeState) : EnsureResult :=
  if !st.connected then
    EnsureResult.err st
      "Not connected to any Chrome tab. Use chrome_list_tabs and chrome_attach first."
  else if env.probeOk then EnsureResult.ok st
  else
    match st.currentTab with
    | some tab =>
      (match env.listTabsResult with
       | Except.error m =>
         EnsureResult.err ⟨false, none⟩
           (("Lost connection to Chrome tab and could not reconnect: ") ++ m)
       | Except.ok tabs =>
         let found := tabs.find? (fun t => t.id == tab.id)
         let chosen := match found with
           | some t => some t
           | none => tabs.head?
         match chosen with
         | none =>
           EnsureResult.err ⟨false, none⟩
             "Lost connection to Chrome tab and could not reconnect: Tab no longer exists"
         | some t =>
           match env.connect t.id with
           | Except.ok _ => EnsureResult.ok ⟨true, some t⟩
           | Except.error m =>
             EnsureResult.err ⟨false, none⟩
               (("Lost connection to Chrome tab and could not reconnect: ") ++ m))
    | none =>
      EnsureResult.err st
        "Lost connection to Chrome tab. Use /tabs and /attach to reconnect."

/-! ## Element resolution for `ChromeClient.click` -/

/-- A DOM element as the injected click script observes it: tag name,
`textContent`, the `aria-label` and `value` attributes (`none` models a
`getAttribute` null), and whether `offsetParent` is null (not rendered). -/
structure Element where
  tag : String
  textContent : String
  ariaLabel : Option String
  value : Option String
  offsetParentNull : Bool
deriving DecidableEq, Repr

/-- The page as the click script observes it: an abstract CSS engine for
`document.querySelector` (`none` models a selector syntax error caught by
the script's try/catch; `some none` a valid selector with no match), the
interactive candidates returned by
`querySelectorAll('a, button, [role="button"], input[type="submit"], input[type="button"]')`
in document order, and all elements in document order. -/
structure ClickPage where
  queryResult : String → Option (Option Element)
  interactiveCandidates : List Element
  allElements : List Element

/-- JavaScript attribute coercion for the `||` chains: a `getAttribute`
null behaves like the empty string (both are falsy). -/
def jsAttrStr (o : Option String) : String := o.getD ""

/-- The text the clickable search compares, from the source expression
`(c.textContent || c.getAttribute('aria-label') || c.getAttribute('value') || '')`:
the first truthy (non-empty) value wins, so `aria-label` and `value` are
consulted only when `textContent` is empty. -/
def clickableMatchText (e : Element) : String :=
  if e.textContent ≠ "" then e.textContent
  else if jsAttrStr e.ariaLabel ≠ "" then jsAttrStr e.ariaLabel
  else jsAttrStr e.value

/-- The step-2 match predicate of the click script: the selected text,
lowercased and trimmed, equals or contains the lowercased trimmed
descriptor. -/
def clickMatches (e : Element) (descriptor : String) : Bool :=
  let searchText := jsTrim (jsToLower descriptor)
  let t := jsTrim (jsToLower (clickableMatchText e))
  t == searchText || containsStr t searchText

/-- Modelled from the spec: the step-2 match predicate as the specification
states it — the element matches whenever ANY of its visible text,
aria-label or value, lowercased and trimmed, equals or contains the
lowercased descriptor.  Used to compare against `clickMatches`. -/
def claimClickMatches (e : Element) (descriptor : String) : Bool :=
  let searchText := jsTrim (jsToLower descriptor)
  [e.textContent, jsAttrStr e.ariaLabel, jsAttrStr e.value].any
    (fun t => jsTrim (jsToLower t) == searchText ||
      containsStr (jsTrim (jsToLower t)) searchText)

/-- The element-resolution pipeline of the click script, in priority order:
the CSS-selector path, then the interactive-candidate text search, then the
broader exact-text scan over all rendered elements. -/
def clickResolve (page : ClickPage) (descriptor : String) : Option Element :=
  match page.queryResult descriptor with
  | some (some el) => some el
  | _ =>
    match page.interactiveCandidates.find? (fun c => clickMatches c descriptor) with
    | some el => some el
    | none =>
      let searchText := jsTrim (jsToLower descriptor)
      page.allElements.find?
        (fun c => (jsTrim (jsToLower c.textContent) == searchText) && !c.offsetParentNull)

/-- The result string of `ChromeClient.click`'s injected script: the clicked
element's tag and a text snippet, or the not-found error. -/
def click (page : ClickPage) (descriptor : String) : String :=
  match clickResolve page descriptor with
  | none => ("ERROR: Could not find element matching: ") ++ descriptor
  | some el =>
    ("Clicked: ") ++ el.tag ++ " \"" ++ strTake 80 (jsTrim el.textContent) ++ "\""

/-! ## The `edit_file` tool (`editFileTool` in `src/tools.ts`) -/

/-- Count of non-overlapping occurrences of a non-empty pattern, scanning
left to right (the number of split points of `content.split(pat)`). -/
def occCount (pat : List Char) : List Char → Nat
  | [] => 0
  | c :: rest =>
    if pat.isPrefixOf (c :: rest) then 1 + occCount pat (rest.drop (pat.length - 1))
    else occCount pat rest
termination_by l => l.length
decreasing_by
  all_goals simp only [List.length_cons, List.length_drop]
  all_goals omega

/-- The GetSubstitution step of JavaScript `String.prototype.replace`:
the replacement text is scanned for dollar patterns even when the search
pattern is a plain string — a pair of dollar signs yields one dollar sign,
dollar-ampersand the matched substring, dollar-backquote the part of the
subject before the match (`preceding`), dollar-quote the part after it
(`following`).  With a string pattern there are no capture groups and no
named captures, so every other dollar sequence (digits, angle brackets, a
trailing dollar) is copied literally.  The two quote-like trigger
characters are written by code point (96 is the backquote, 39 the single
quote). -/
def getSubstitution (matched preceding following : List Char) : List Char → List Char
  | [] => []
  | c :: rest =>
    if c = '$' then
      match rest with
      | [] => ['$']
      | d :: rest2 =>
        if d = '$' then '$' :: getSubstitution matched preceding following rest2
        else if d = '&' then matched ++ getSubstitution matched preceding following rest2
        else if d = Char.ofNat 96 then
          preceding ++ getSubstitution matched preceding following rest2
        else if d = Char.ofNat 39 then
          following ++ getSubstitution matched preceding following rest2
        else '$' :: getSubstitution matched preceding following (d :: rest2)
    else c :: getSubstitution matched preceding following rest

/-- Replace the leftmost occurrence of a non-empty pattern, applying
GetSubstitution to the replacement text; `pre` accumulates the part of the
subject already scanned (the text preceding a later match). -/
def replaceFirstAux (old new : List Char) (pre : List Char) : List Char → List Char
  | [] => []
  | c :: rest =>
    if old.isPrefixOf (c :: rest) then
      getSubstitution old pre (rest.drop (old.length - 1)) new ++
        rest.drop (old.length - 1)
    else c :: replaceFirstAux old new (pre ++ [c]) rest

/-- JavaScript `content.split(old).length - 1`, the occurrence count the
tool checks.  For the empty separator, `split("")` yields one element per
character, so the value is `content.length - 1` — which is `-1` on the
empty string, hence the `Int` result. -/
def jsSplitCount (content old : String) : Int :=
  if old = "" then (content.length : Int) - 1
  else (occCount old.data content.data : Int)

/-- JavaScript `content.replace(old, new)` with a string pattern: replace
the first occurrence with the GetSubstitution-processed replacement text,
return the content unchanged when there is none, and match at position 0
with an empty matched substring for the empty pattern. -/
def jsReplaceFirst (content old new : String) : String :=
  if old = "" then ⟨getSubstitution [] [] content.data new.data ++ content.data⟩
  else ⟨replaceFirstAux old.data new.data [] content.data⟩

/-- JavaScript `s.split("\n").length`, used in the success message. -/
def countLines (s : String) : Nat := (s.splitOn ("\n")).length

/-- `editFileTool` over an abstract file system (mapping resolved paths to
file contents): missing file, zero occurrences and multiple occurrences
return `ERROR:` results and leave the file system unchanged; a unique
occurrence writes the replaced content back. -/
def editFileTool (fs : String → Option String) (path old new : String) :
    String × (String → Option String) :=
  match fs path with
  | none => (("ERROR: File not found: ") ++ path, fs)
  | some content =>
    let count := jsSplitCount content old
    if count = 0 then
      (("ERROR: old_string not found in ") ++ path ++
        ". Make sure it matches exactly (including whitespace/indentation).", fs)
    else if 1 < count then
      (("ERROR: old_string found ") ++ toString count ++ " times in " ++ path ++
        ". It must be unique. Include more surrounding context to narrow it down.", fs)
    else
      let newContent := jsReplaceFirst content old new
      (("Edited ") ++ path ++ ": replaced " ++ toString (countLines old) ++
        " line(s) with " ++ toString (countLines new) ++ " line(s).",
       fun q => if q = path then some newContent else fs q)

/-- Modelled from the claim's words for `edit_file`: the number of positions
at which `pat` occurs in `content` (counting overlapping occurrences, as a
plain reading of "occurs exactly once" does). -/
def claimOccurrences (pat content : String) : Nat :=
  content.data.tails.countP (fun t => pat.data.isPrefixOf t)

/-! ## Concrete fixtures used by witnesses and counterexamples -/

/-- An interrupt flag that is never set. -/
def flagOff : Nat → Bool := fun _ => false

/-- An interrupt flag first observed set at checkpoint 2. -/
def flagAfterTwo : Nat → Bool := fun j => decide (2 ≤ j)

/-- A tool-router stub returning a result derived from the call name. -/
def runToolW : Nat → ToolCall → String := fun _ c => ("result of ") ++ c.name

/-- A two-call batch. -/
def callsTwo : List ToolCall := [⟨"chrome_click"⟩, ⟨"chrome_get_page_text"⟩]

/-- A five-call batch. -/
def callsFive : List ToolCall :=
  [⟨"chrome_navigate"⟩, ⟨"chrome_click"⟩, ⟨"chrome_type"⟩,
   ⟨"chrome_get_page_text"⟩, ⟨"chrome_screenshot"⟩]

/-- A tool environment whose navigate action throws. -/
def envW : ToolEnv :=
  ⟨Except.ok [],
   fun _ => ToolOutcome.ok ("attached"),
   fun _ => ToolOutcome.thrown ("boom"),
   ToolOutcome.ok ("page text"),
   fun _ => ToolOutcome.ok ("shot"),
   fun _ => ToolOutcome.ok ("clicked"),
   fun _ _ => ToolOutcome.ok ("typed"),
   fun _ _ => ToolOutcome.ok ("scrolled"),
   fun _ => ToolOutcome.ok ("pressed"),
   fun _ => ToolOutcome.ok ("waited"),
   fun _ _ _ => ToolOutcome.ok ("read"),
   fun _ _ => ToolOutcome.ok ("written"),
   fun _ _ _ => ToolOutcome.ok ("edited"),
   fun _ _ => ToolOutcome.ok ("listed"),
   fun _ _ _ => ToolOutcome.ok ("found"),
   fun _ _ => ToolOutcome.ok ("ran")⟩

/-- An empty argument record. -/
def argsW : ToolArgs := ⟨none, none, none, none, none, none, none, none, none, none,
  none, none, none, none, none, none, none, none, none, none⟩

/-- The cached descriptor of the previously attached tab. -/
def tabOld : TabInfo := ⟨"tab-1", "Old title", "https://a.example"⟩

/-- The same tab as re-listed after navigation (same id, fresh title/url). -/
def tabNew : TabInfo := ⟨"tab-1", "New title", "https://a.example/next"⟩

/-- An unrelated tab. -/
def tabOther : TabInfo := ⟨"tab-2", "Other", "https://b.example"⟩

/-- Attached client state pointing at `tabOld`. -/
def stAttached : ChromeState := ⟨true, some tabOld⟩

/-- Probe fails; the original tab id is present in the refreshed list. -/
def envReconnectSame : CdpEnv := ⟨false, Except.ok [tabOther, tabNew], fun _ => Except.ok ()⟩

/-- Probe fails; the original tab id is gone, another tab is available. -/
def envReconnectFirst : CdpEnv := ⟨false, Except.ok [tabOther], fun _ => Except.ok ()⟩

/-- Probe fails; the refreshed tab list is empty. -/
def envReconnectEmpty : CdpEnv := ⟨false, Except.ok [], fun _ => Except.ok ()⟩

/-- Probe fails; reconnecting to the found tab fails. -/
def envReconnectRefused : CdpEnv :=
  ⟨false, Except.ok [tabOther, tabNew], fun _ => Except.error ("connect refused")⟩

/-- The element a custom-tag CSS selector resolves to. -/
def elSel : Element := ⟨"SUBMIT-BTN", "Go", none, none, false⟩

/-- An element whose text contains the descriptor as a substring. -/
def elText : Element := ⟨"DIV", "please submit now", none, none, false⟩

/-- A page on which the descriptor is a valid selector matching `elSel`
while `elText`'s text also contains the descriptor. -/
def pageSel : ClickPage :=
  ⟨fun d => if d = "submit" then some (some elSel) else none, [elText], [elText]⟩

/-- A button whose visible text does not match but whose aria-label does. -/
def elAria : Element := ⟨"BUTTON", "Icon", some ("Submit form"), none, false⟩

/-- A page whose only interactive candidate is `elAria` and on which the
descriptor is not a valid selector. -/
def pageAria : ClickPage := ⟨fun _ => none, [elAria], [elAria]⟩

/-- A plain user log entry. -/
def entryU : LogEntry := ⟨"2025-01-01T00:00:00", Role.user, "hello", none⟩

/-- A three-entry log: system, user, model. -/
def logThree : List LogEntry :=
  [⟨"t1", Role.system, "ctx", none⟩, ⟨"t2", Role.user, "u", none⟩, ⟨"t3", Role.model, "m", none⟩]

/-- A file system with one file containing overlapping occurrences. -/
def fsOverlap : String → Option String := fun q => if q = "f" then some ("aaa") else none

/-- A file system with one empty file. -/
def fsEmptyFile : String → Option String := fun q => if q = "g" then some ("") else none

/-- A file system with one ordinary file. -/
def fsHello : String → Option String :=
  fun q => if q = "h" then some ("hello world") else none

/-- A file system with one file for the dollar-substitution edit. -/
def fsDollar : String → Option String := fun q => if q = "d" then some ("abc") else none

/-! ## Helper lemmas -/

theorem head?_dropWhile_false {α : Type} (p : α → Bool) (l : List α) (x : α)
    (h : (l.dropWhile p).head? = some x) : p x = false := by
  induction l with
  | nil => simp [List.dropWhile] at h
  | cons a t ih =>
    rw [List.dropWhile_cons] at h
    by_cases hp : p a
    · rw [if_pos hp] at h
      exact ih h
    · rw [if_neg hp] at h
      simp only [List.head?_cons, Option.some.injEq] at h
      subst h
      simpa using hp

theorem mergeBlocks_head_role (l : List GBlock) :
    (mergeBlocks l).head?.map GBlock.role = l.head?.map GBlock.role := by
  induction l using mergeBlocks.induct with
  | case1 => simp [mergeBlocks]
  | case2 b => simp [mergeBlocks]
  | case3 b1 b2 rest h ih =>
    rw [mergeBlocks]
    simp only [if_pos h]
    simpa using ih
  | case4 b1 b2 rest h ih =>
    rw [mergeBlocks]
    simp [if_neg h]

theorem mergeBlocks_alternate (l : List GBlock) :
    rolesAlternate (mergeBlocks l) = true := by
  induction l using mergeBlocks.induct with
  | case1 => simp [mergeBlocks, rolesAlternate]
  | case2 b => simp [mergeBlocks, rolesAlternate]
  | case3 b1 b2 rest h ih =>
    rw [mergeBlocks]
    simpa [if_pos h] using ih
  | case4 b1 b2 rest h ih =>
    rw [mergeBlocks]
    simp only [if_neg h]
    have hh := mergeBlocks_head_role (b2 :: rest)
    cases hm : mergeBlocks (b2 :: rest) with
    | nil => simp [rolesAlternate]
    | cons c cs =>
      rw [hm] at hh ih
      simp only [List.head?_cons, Option.map_some'] at hh
      rw [rolesAlternate]
      have hcr : c.role = b2.role := by simpa using hh
      simp [ih, hcr, h]

theorem rolesAlternate_append_left (xs ys : List GBlock)
    (h : rolesAlternate (xs ++ ys) = true) : rolesAlternate xs = true := by
  induction xs with
  | nil => simp [rolesAlternate]
  | cons a t ih =>
    cases t with
    | nil => simp [rolesAlternate]
    | cons b u =>
      rw [List.cons_append, List.cons_append, rolesAlternate] at h
      rw [rolesAlternate]
      simp only [Bool.and_eq_true] at h ⊢
      refine ⟨h.1, ?_⟩
      exact ih (by rw [List.cons_append]; exact h.2)

theorem dropTrailingUsers_decomp (l : List GBlock) :
    ∃ ys, l = dropTrailingUsers l ++ ys ∧ ∀ b ∈ ys, b.role = GRole.user := by
  refine ⟨(l.reverse.takeWhile (fun b => b.role == GRole.user)).reverse, ?_, ?_⟩
  · unfold dropTrailingUsers
    calc l = l.reverse.reverse := (List.reverse_reverse l).symm
      _ = ((l.reverse.takeWhile (fun b => b.role == GRole.user)) ++
            (l.reverse.dropWhile (fun b => b.role == GRole.user))).reverse := by
          rw [List.takeWhile_append_dropWhile]
      _ = (l.reverse.dropWhile (fun b => b.role == GRole.user)).reverse ++
            (l.reverse.takeWhile (fun b => b.role == GRole.user)).reverse := by
          rw [List.reverse_append]
  · intro b hb
    rw [List.mem_reverse] at hb
    have := List.mem_takeWhile_imp hb
    simpa using this

theorem historyShapeAux (l : List GBlock) :
    dropTrailingUsers (mergeBlocks (l.dropWhile (fun b => b.role == GRole.model))) = [] ∨
    ((dropTrailingUsers (mergeBlocks
        (l.dropWhile (fun b => b.role == GRole.model)))).head?.map GBlock.role
          = some GRole.user ∧
     (dropTrailingUsers (mergeBlocks
        (l.dropWhile (fun b => b.role == GRole.model)))).getLast?.map GBlock.role
          = some GRole.model ∧
     rolesAlternate (dropTrailingUsers (mergeBlocks
        (l.dropWhile (fun b => b.role == GRole.model)))) = true) := by
  set h1 := l.dropWhile (fun b => b.role == GRole.model) with hh1
  set m := mergeBlocks h1 with hm
  set r := dropTrailingUsers m with hrdef
  by_cases hcase : r = []
  · exact Or.inl hcase
  right
  obtain ⟨ys, hdec, hys⟩ := dropTrailingUsers_decomp m
  rw [← hrdef] at hdec
  refine ⟨?_, ?_, ?_⟩
  · obtain ⟨b, rt, hb⟩ : ∃ b rt, r = b :: rt := by
      cases hr2 : r with
      | nil => exact absurd hr2 hcase
      | cons b rt => exact ⟨b, rt, rfl⟩
    have hmh : m.head? = some b := by rw [hdec, hb]; rfl
    have hmr := mergeBlocks_head_role h1
    rw [← hm, hmh] at hmr
    cases hh : h1.head? with
    | none => rw [hh] at hmr; simp at hmr
    | some b' =>
      rw [hh] at hmr
      simp only [Option.map_some', Option.some.injEq] at hmr
      have hp : (b'.role == GRole.model) = false :=
        head?_dropWhile_false (fun b => b.role == GRole.model) l b' hh
      have hb'u : b'.role = GRole.user := by
        cases hbr : b'.role
        · rfl
        · rw [hbr] at hp; simp at hp
      rw [hb]
      simp only [List.head?_cons, Option.map_some', Option.some.injEq]
      rw [hmr, hb'u]
  · have hgl : r.getLast? =
        (m.reverse.dropWhile (fun b => b.role == GRole.user)).head? := by
      rw [hrdef]
      unfold dropTrailingUsers
      exact List.getLast?_reverse _
    cases hgr : r.getLast? with
    | none =>
      rw [List.getLast?_eq_none_iff] at hgr
      exact absurd hgr hcase
    | some b =>
      rw [hgr] at hgl
      have hp : (b.role == GRole.user) = false :=
        head?_dropWhile_false _ m.reverse b hgl.symm
      have : b.role = GRole.model := by
        cases hbr : b.role
        · rw [hbr] at hp; simp at hp
        · rfl
      simp [this]
  · have halt := mergeBlocks_alternate h1
    rw [← hm, hdec] at halt
    exact rolesAlternate_append_left r ys halt

theorem execBatch_no_flag (flag : Nat → Bool) (runTool : Nat → ToolCall → String)
    (hflag : ∀ j, flag j = false) :
    ∀ (j : Nat) (calls : List ToolCall),
      (execBatch flag runTool j calls).2 = true ∧
      (execBatch flag runTool j calls).1.map FunctionResult.name
        = calls.map ToolCall.name := by
  intro j calls
  induction calls generalizing j with
  | nil => simp [execBatch]
  | cons c rest ih =>
    have h := ih (j + 1)
    simp only [execBatch, hflag j, Bool.false_eq_true, if_neg, ite_false, List.map_cons]
    exact ⟨h.1, by rw [h.2]⟩

theorem execBatch_interrupt (flag : Nat → Bool) (runTool : Nat → ToolCall → String) :
    ∀ (calls : List ToolCall) (j k : Nat), k < calls.length →
      (∀ i, i < k → flag (j + i) = false) → flag (j + k) = true →
      (execBatch flag runTool j calls).1.map FunctionResult.name
        = (calls.take k).map ToolCall.name ∧
      (execBatch flag runTool j calls).2 = false := by
  intro calls
  induction calls with
  | nil => intro j k hk; simp at hk
  | cons c rest ih =>
    intro j k hk hlt hat
    cases k with
    | zero =>
      have : flag j = true := by simpa using hat
      simp [execBatch, this]
    | succ k' =>
      have h0 : flag j = false := by simpa using hlt 0 (Nat.succ_pos k')
      have hrec := ih (j + 1) k'
        (by simpa using Nat.lt_of_succ_lt_succ hk)
        (fun i hi => by
          have := hlt (i + 1) (Nat.succ_lt_succ hi)
          simpa [Nat.add_assoc, Nat.add_comm 1 i] using this)
        (by
          have : j + 1 + k' = j + (k' + 1) := by omega
          rw [this]
          exact hat)
      simp only [execBatch, h0, Bool.false_eq_true, if_neg, ite_false, List.take_succ_cons,
        List.map_cons]
      exact ⟨by rw [hrec.1], hrec.2⟩

/-! ## Claim theorems -/

/-- C1: for every conversation log (and any context-turn budget),
`toGeminiHistory` returns a block list that is either empty or starts with a
user-role block and ends with a model-role block, with no two adjacent
blocks of the same role (tool calls having been mapped to the model role,
tool results to the user role, and system entries omitted). -/
theorem toGeminiHistory_shape (contextTurns : Nat) (entries : List LogEntry) :
    toGeminiHistory contextTurns entries = [] ∨
    ((toGeminiHistory contextTurns entries).head?.map GBlock.role = some GRole.user ∧
     (toGeminiHistory contextTurns entries).getLast?.map GBlock.role = some GRole.model ∧
     rolesAlternate (toGeminiHistory contextTurns entries) = true) :=
  historyShapeAux (((recentEntries contextTurns entries).map entryToBlocks).flatten)

/-- C2: whenever the per-turn tool-call counter reaches the compaction
threshold of 12 after an uninterrupted batch, `processResponse` resets the
chat to the empty history and the continuation message it sends contains
both the original task text and the name of the most recently executed tool
of the batch. -/
theorem compaction_continuation_has_task_and_last_tool
    (flag : Nat → Bool) (runTool : Nat → ToolCall → String) (count : Nat)
    (calls : List ToolCall) (wd task : String)
    (completedActions : List String) (memoryCtx : String)
    (hflag : ∀ j, flag j = false) (hne : calls ≠ [])
    (hthr : compactThreshold ≤ count + calls.length) :
    ∃ act : CompactAction,
      (processCallBatch flag runTool count calls wd task completedActions
        memoryCtx).compaction = some act ∧
      act.newHistory = [] ∧
      (∃ p s, act.message = p ++ task ++ s) ∧
      (∃ p s, act.message = p ++ (calls.getLast hne).name ++ s) := by
  have hb := execBatch_no_flag flag runTool hflag 0 calls
  have hmap : (execBatch flag runTool 0 calls).1.map FunctionResult.name
      = calls.map ToolCall.name := hb.2
  have hne' : (execBatch flag runTool 0 calls).1 ≠ [] := by
    intro h0
    rw [h0] at hmap
    exact hne (List.map_eq_nil_iff.mp hmap.symm)
  obtain ⟨lastFr, hlast⟩ : ∃ lastFr,
      (execBatch flag runTool 0 calls).1.getLast? = some lastFr := by
    cases hgl : (execBatch flag runTool 0 calls).1.getLast? with
    | none => exact absurd (List.getLast?_eq_none_iff.mp hgl) hne'
    | some x => exact ⟨x, rfl⟩
  have hlname : lastFr.name = (calls.getLast hne).name := by
    have h1 : ((execBatch flag runTool 0 calls).1.map FunctionResult.name).getLast?
        = (calls.map ToolCall.name).getLast? := by rw [hmap]
    rw [List.getLast?_map, List.getLast?_map, hlast,
      List.getLast?_eq_getLast _ hne] at h1
    simpa using h1
  refine ⟨⟨[], continuationMsg wd task lastFr completedActions memoryCtx⟩, ?_, rfl, ?_, ?_⟩
  · simp only [processCallBatch, hb.1, Bool.not_true, Bool.false_eq_true, if_false,
      hflag calls.length, if_pos hthr, hlast]
  · refine ⟨"[Working directory: " ++ wd ++
      "]\n\n[CONTEXT COMPACTED — Previous conversation was reset to save tokens.]\n\nYour original task: ",
      "\n\nThe last tool you used was \"" ++ lastFr.name ++ "\" which returned: " ++
        strTake 500 (jsonEncodeString lastFr.result) ++ actionSummary completedActions ++
        memoryCtx ++
        "\n\nContinue working on the task. Read the current page state if needed and keep going.",
      ?_⟩
    simp only [continuationMsg, String.append_assoc]
  · refine ⟨"[Working directory: " ++ wd ++
      "]\n\n[CONTEXT COMPACTED — Previous conversation was reset to save tokens.]\n\nYour original task: " ++
      task ++ "\n\nThe last tool you used was \"",
      "\" which returned: " ++ strTake 500 (jsonEncodeString lastFr.result) ++
        actionSummary completedActions ++ memoryCtx ++
        "\n\nContinue working on the task. Read the current page state if needed and keep going.",
      ?_⟩
    rw [← hlname]
    simp only [continuationMsg, String.append_assoc]

theorem compaction_continuation_witness :
    ∃ act : CompactAction,
      (processCallBatch flagOff runToolW 10 callsTwo "/w" "star the repo" [] "").compaction
        = some act ∧
      act.newHistory = [] ∧
      (∃ p s, act.message = p ++ "star the repo" ++ s) ∧
      (∃ p s, act.message = p ++ (callsTwo.getLast (by decide)).name ++ s) :=
  compaction_continuation_has_task_and_last_tool flagOff runToolW 10 callsTwo
    "/w" "star the repo" [] "" (fun _ => rfl) (by decide) (by decide)

/-- C3: if the interrupt flag is first observed set at the checkpoint after
the k-th executed tool call of an n-call batch (k < n), then only the first
k calls are executed — calls k+1 through n never run — and no function
results from the batch are sent back to the model for that turn (and no
compaction continuation is sent either). -/
theorem interrupt_abandons_batch
    (flag : Nat → Bool) (runTool : Nat → ToolCall → String) (count : Nat)
    (calls : List ToolCall) (wd task : String)
    (completedActions : List String) (memoryCtx : String) (k : Nat)
    (hk : k < calls.length) (hbefore : ∀ i, i < k → flag i = false)
    (hat : flag k = true) :
    (processCallBatch flag runTool count calls wd task completedActions
        memoryCtx).executed.map FunctionResult.name
      = (calls.take k).map ToolCall.name ∧
    (processCallBatch flag runTool count calls wd task completedActions
        memoryCtx).sentResults = none ∧
    (processCallBatch flag runTool count calls wd task completedActions
        memoryCtx).compaction = none := by
  have hb := execBatch_interrupt flag runTool calls 0 k hk
    (fun i hi => by simpa using hbefore i hi) (by simpa using hat)
  refine ⟨?_, ?_, ?_⟩ <;>
    simp only [processCallBatch, hb.2, Bool.not_false, if_true, hb.1]

theorem interrupt_abandons_batch_witness :
    (processCallBatch flagAfterTwo runToolW 0 callsFive "/w" "task" []
        "").executed.map FunctionResult.name
      = (callsFive.take 2).map ToolCall.name ∧
    (processCallBatch flagAfterTwo runToolW 0 callsFive "/w" "task" []
        "").sentResults = none ∧
    (processCallBatch flagAfterTwo runToolW 0 callsFive "/w" "task" []
        "").compaction = none :=
  interrupt_abandons_batch flagAfterTwo runToolW 0 callsFive "/w" "task" [] "" 2
    (by decide)
    (fun i hi => by
      simp only [flagAfterTwo, decide_eq_false_iff_not]
      omega)
    (by decide)

/-- C4: the spec's scenario claims a message containing the fractional delay
`retry in 7.5s` yields a wait of `ceil(7.5) + 2 = 10` seconds, but the
capture group of `/retry.*?(\d+)\.?\d*s/i` holds only the integer part `7`
of the delay, so `withRetry` computes `Math.ceil(7) + 2 = 9` seconds: the
code truncates fractional delays instead of taking their ceiling. -/
theorem retryWait_truncates_fractional_delay :
    isRateLimitMsg msg429 = true ∧
    parseRetryDelay msg429 = some 7 ∧
    retryWaitSec msg429 0 = 9 ∧
    retryWaitSec msg429 0 ≠ 10 := by
  refine ⟨by decide, by decide, by decide, by decide⟩

/-- C5: `executeTool` always returns a textual result (it is a total
function into strings, so its promise never rejects): a thrown error from
the dispatched tool implementation is caught and rendered as
`Tool error (<toolName>): <message>`, and an unrecognized tool name yields
an `Unknown tool` string rather than an error. -/
theorem executeTool_total_and_tagged (env : ToolEnv) (name : String) (args : ToolArgs) :
    (∀ m, dispatchTool env name args = ToolOutcome.thrown m →
      executeTool env name args = ("Tool error (") ++ name ++ "): " ++ m) ∧
    (name ∉ knownToolNames →
      executeTool env name args = ("Unknown tool: ") ++ name) := by
  constructor
  · intro m h
    unfold executeTool
    rw [h]
  · intro h
    simp only [knownToolNames, List.mem_cons, List.not_mem_nil, or_false, not_or] at h
    obtain ⟨h1, h2, h3, h4, h5, h6, h7, h8, h9, h10, h11, h12, h13, h14, h15, h16⟩ := h
    unfold executeTool dispatchTool
    rw [if_neg h1, if_neg h2, if_neg h3, if_neg h4, if_neg h5, if_neg h6, if_neg h7,
      if_neg h8, if_neg h9, if_neg h10, if_neg h11, if_neg h12, if_neg h13, if_neg h14,
      if_neg h15, if_neg h16]

theorem executeTool_total_and_tagged_witness :
    executeTool envW "chrome_navigate" argsW = "Tool error (chrome_navigate): boom" ∧
    executeTool envW "bogus_tool" argsW = "Unknown tool: bogus_tool" := by
  constructor
  · exact ((executeTool_total_and_tagged envW "chrome_navigate" argsW).1 "boom"
      (by rfl)).trans rfl
  · exact ((executeTool_total_and_tagged envW "bogus_tool" argsW).2
      (by decide)).trans rfl

/-- C6: when the liveness probe fails while a tab is attached,
`ensureConnected` (1) reattaches to the tab of the refreshed list whose id
equals the previously attached tab's id when one exists, (2) attaches to the
first listed tab when that id is absent but the list is non-empty, (3) on an
empty refreshed list clears the attached state and reports the reconnection
error, and (4) on a reconnection failure clears the attached state and
reports the reconnection error. -/
theorem ensureConnected_reconnect (env : CdpEnv) (st : ChromeState) (tab : TabInfo)
    (hconn : st.connected = true) (htab : st.currentTab = some tab)
    (hprobe : env.probeOk = false) :
    (∀ tabs t, env.listTabsResult = Except.ok tabs →
      tabs.find? (fun u => u.id == tab.id) = some t →
      env.connect t.id = Except.ok () →
      ensureConnected env st = EnsureResult.ok ⟨true, some t⟩) ∧
    (∀ t0 rest, env.listTabsResult = Except.ok (t0 :: rest) →
      (t0 :: rest).find? (fun u => u.id == tab.id) = none →
      env.connect t0.id = Except.ok () →
      ensureConnected env st = EnsureResult.ok ⟨true, some t0⟩) ∧
    (env.listTabsResult = Except.ok [] →
      ensureConnected env st = EnsureResult.err ⟨false, none⟩
        "Lost connection to Chrome tab and could not reconnect: Tab no longer exists") ∧
    (∀ tabs t m, env.listTabsResult = Except.ok tabs →
      (tabs.find? (fun u => u.id == tab.id) = some t ∨
        (tabs.find? (fun u => u.id == tab.id) = none ∧ tabs.head? = some t)) →
      env.connect t.id = Except.error m →
      ensureConnected env st = EnsureResult.err ⟨false, none⟩
        (("Lost connection to Chrome tab and could not reconnect: ") ++ m)) := by
  refine ⟨?_, ?_, ?_, ?_⟩
  · intro tabs t hlist hfind hcon
    simp only [ensureConnected, hconn, Bool.not_true, Bool.false_eq_true, if_false,
      hprobe, htab, hlist, hfind, hcon]
  · intro t0 rest hlist hfind hcon
    simp only [ensureConnected, hconn, Bool.not_true, Bool.false_eq_true, if_false,
      hprobe, htab, hlist, hfind, List.head?_cons, hcon]
  · intro hlist
    simp only [ensureConnected, hconn, Bool.not_true, Bool.false_eq_true, if_false,
      hprobe, htab, hlist, List.find?_nil, List.head?_nil]
  · intro tabs t m hlist hchoose hcon
    rcases hchoose with hfind | ⟨hfind, hhead⟩
    · simp only [ensureConnected, hconn, Bool.not_true, Bool.false_eq_true, if_false,
        hprobe, htab, hlist, hfind, hcon]
    · simp only [ensureConnected, hconn, Bool.not_true, Bool.false_eq_true, if_false,
        hprobe, htab, hlist, hfind, hhead, hcon]

theorem ensureConnected_reconnect_witness :
    ensureConnected envReconnectSame stAttached = EnsureResult.ok ⟨true, some tabNew⟩ ∧
    ensureConnected envReconnectFirst stAttached = EnsureResult.ok ⟨true, some tabOther⟩ ∧
    ensureConnected envReconnectEmpty stAttached = EnsureResult.err ⟨false, none⟩
      "Lost connection to Chrome tab and could not reconnect: Tab no longer exists" ∧
    ensureConnected envReconnectRefused stAttached = EnsureResult.err ⟨false, none⟩
      "Lost connection to Chrome tab and could not reconnect: connect refused" := by
  refine ⟨?_, ?_, ?_, ?_⟩
  · exact (ensureConnected_reconnect envReconnectSame stAttached tabOld rfl rfl rfl).1
      [tabOther, tabNew] tabNew rfl (by decide) rfl
  · exact (ensureConnected_reconnect envReconnectFirst stAttached tabOld rfl rfl rfl).2.1
      tabOther [] rfl (by decide) rfl
  · exact (ensureConnected_reconnect envReconnectEmpty stAttached tabOld rfl rfl rfl).2.2.1
      rfl
  · exact ((ensureConnected_reconnect envReconnectRefused stAttached tabOld rfl rfl
      rfl).2.2.2 [tabOther, tabNew] tabNew "connect refused" rfl
      (Or.inl (by decide)) rfl).trans (by rfl)

/-- C7: whenever the descriptor is a syntactically valid CSS selector whose
`querySelector` lookup yields an element (the first match), `click` resolves
the target through the CSS-selector path, regardless of what the text-match
steps would find — the selector step strictly precedes text matching. -/
theorem click_selector_priority (page : ClickPage) (descriptor : String) (el : Element)
    (h : page.queryResult descriptor = some (some el)) :
    clickResolve page descriptor = some el ∧
    click page descriptor =
      ("Clicked: ") ++ el.tag ++ " \"" ++ strTake 80 (jsTrim el.textContent) ++ "\"" := by
  constructor
  · unfold clickResolve
    rw [h]
  · unfold click clickResolve
    rw [h]

theorem click_selector_priority_witness :
    clickResolve pageSel "submit" = some elSel ∧
    click pageSel "submit" = "Clicked: SUBMIT-BTN \"Go\"" ∧
    containsStr elText.textContent "submit" = true := by
  have h := click_selector_priority pageSel "submit" elSel (by rfl)
  exact ⟨h.1, h.2.trans rfl, by decide⟩

/-- C8 counterexample: an interactive element whose aria-label contains the
descriptor while its non-empty visible text does not is claimed to match
the clickable text search, but the source computes the candidate text with
`(textContent || aria-label || value || '')`, which never consults the
aria-label when the visible text is non-empty — so the element does not
match and the click resolution fails. -/
theorem clickMatches_aria_counterexample :
    claimClickMatches elAria "submit" = true ∧
    clickMatches elAria "submit" = false ∧
    click pageAria "submit" = "ERROR: Could not find element matching: submit" := by
  refine ⟨by decide, by decide, by decide⟩

/-- C8 (amended): the clickable text search compares only the first
non-empty value of `textContent`, `aria-label`, `value` (JavaScript `||`
fallback), lowercased and trimmed, to the lowercased trimmed descriptor via
equality-or-containment; in particular the aria-label is consulted only when
the visible text is empty, and the value only when both are empty. -/
theorem clickMatches_first_truthy (e : Element) (descriptor : String) :
    (e.textContent ≠ "" →
      clickMatches e descriptor =
        (jsTrim (jsToLower e.textContent) == jsTrim (jsToLower descriptor) ||
          containsStr (jsTrim (jsToLower e.textContent)) (jsTrim (jsToLower descriptor)))) ∧
    (e.textContent = "" → jsAttrStr e.ariaLabel ≠ "" →
      clickMatches e descriptor =
        (jsTrim (jsToLower (jsAttrStr e.ariaLabel)) == jsTrim (jsToLower descriptor) ||
          containsStr (jsTrim (jsToLower (jsAttrStr e.ariaLabel)))
            (jsTrim (jsToLower descriptor)))) ∧
    (e.textContent = "" → jsAttrStr e.ariaLabel = "" →
      clickMatches e descriptor =
        (jsTrim (jsToLower (jsAttrStr e.value)) == jsTrim (jsToLower descriptor) ||
          containsStr (jsTrim (jsToLower (jsAttrStr e.value)))
            (jsTrim (jsToLower descriptor)))) := by
  refine ⟨?_, ?_, ?_⟩
  · intro h
    simp only [clickMatches, clickableMatchText, if_pos h]
  · intro h1 h2
    simp only [clickMatches, clickableMatchText, h1, ne_eq, not_true_eq_false, if_false,
      if_pos h2]
  · intro h1 h2
    simp only [clickMatches, clickableMatchText, h1, h2, ne_eq, not_true_eq_false,
      if_false]

theorem clickMatches_first_truthy_witness :
    clickMatches elAria "icon" =
      (jsTrim (jsToLower elAria.textContent) == jsTrim (jsToLower ("icon")) ||
        containsStr (jsTrim (jsToLower elAria.textContent)) (jsTrim (jsToLower ("icon")))) ∧
    clickMatches ⟨"BUTTON", "", some ("Send now"), none, false⟩ "send" =
      (jsTrim (jsToLower (jsAttrStr (some ("Send now")))) == jsTrim (jsToLower ("send")) ||
        containsStr (jsTrim (jsToLower (jsAttrStr (some ("Send now")))))
          (jsTrim (jsToLower ("send")))) ∧
    clickMatches ⟨"INPUT", "", none, some ("Search"), false⟩ "search" =
      (jsTrim (jsToLower (jsAttrStr (some ("Search")))) == jsTrim (jsToLower ("search")) ||
        containsStr (jsTrim (jsToLower (jsAttrStr (some ("Search")))))
          (jsTrim (jsToLower ("search")))) := by
  refine ⟨?_, ?_, ?_⟩
  · exact (clickMatches_first_truthy elAria "icon").1 (by decide)
  · exact (clickMatches_first_truthy ⟨"BUTTON", "", some ("Send now"), none, false⟩
      "send").2.1 rfl (by decide)
  · exact (clickMatches_first_truthy ⟨"INPUT", "", none, some ("Search"), false⟩
      "search").2.2 rfl (by decide)

/-- C9 counterexample: with `contextTurns = 0` (an admissible `CONTEXT_TURNS`
configuration) and a one-entry log, the claim predicts at most the first
system entry followed by the last zero entries — the empty list — but the
source computes the tail with `this.entries.slice(-maxEntries)`, and
`slice(-0)` is `slice(0)`, which returns the whole log. -/
theorem recentEntries_slice_zero_counterexample :
    recentEntries 0 [entryU] = [entryU] ∧
    claimRecentEntries 0 [entryU] = [] ∧
    recentEntries 0 [entryU] ≠ claimRecentEntries 0 [entryU] := by
  refine ⟨by decide, by decide, by decide⟩

/-- C9 (amended): for every positive `contextTurns`, `recentEntries` returns
the log whole when it has at most `contextTurns * 2` entries, and otherwise
the first entry (when its role is system) followed by the last
`contextTurns * 2` entries in order — at most `contextTurns * 2` recent
entries with the leading system entry preserved. -/
theorem recentEntries_matches_claim_of_pos (contextTurns : Nat)
    (entries : List LogEntry) (h : contextTurns ≠ 0) :
    recentEntries contextTurns entries = claimRecentEntries contextTurns entries := by
  unfold recentEntries claimRecentEntries sliceNeg lastN
  have h2 : ¬(contextTurns * 2 = 0) := by omega
  simp only [if_neg h2]

theorem recentEntries_matches_claim_witness :
    recentEntries 1 logThree = claimRecentEntries 1 logThree :=
  recentEntries_matches_claim_of_pos 1 logThree (by decide)

theorem getSubstitution_no_dollar (matched preceding following : List Char) :
    ∀ repl : List Char, '$' ∉ repl →
      getSubstitution matched preceding following repl = repl := by
  intro repl
  induction repl with
  | nil => intro _; simp [getSubstitution]
  | cons c rest ih =>
    intro h
    have hc : c ≠ '$' := by
      intro hq
      exact h (by rw [hq]; exact List.mem_cons_self _ _)
    have hr : ('$' : Char) ∉ rest := fun hm => h (List.mem_cons_of_mem c hm)
    rw [getSubstitution.eq_def]
    simp only [if_neg hc]
    rw [ih hr]

theorem replaceFirst_decomp (pat new : List Char) (hp : pat ≠ []) :
    ∀ l pre0 : List Char, occCount pat l = 1 →
      ∃ pre post, l = pre ++ pat ++ post ∧
        replaceFirstAux pat new pre0 l
          = pre ++ getSubstitution pat (pre0 ++ pre) post new ++ post := by
  intro l
  induction l with
  | nil => intro pre0 h; simp [occCount] at h
  | cons c rest ih =>
    intro pre0 h
    by_cases hpre : pat.isPrefixOf (c :: rest)
    · have hpfx : pat <+: (c :: rest) := by
        rw [← List.isPrefixOf_iff_prefix]
        exact hpre
      obtain ⟨t, ht⟩ := hpfx
      refine ⟨[], t, by rw [← ht]; simp, ?_⟩
      rw [replaceFirstAux, if_pos hpre]
      have hdrop : rest.drop (pat.length - 1) = t := by
        cases pat with
        | nil => exact absurd rfl hp
        | cons p ps =>
          rw [List.cons_append] at ht
          have hrest : ps ++ t = rest := by
            injection ht with h1 h2
          rw [← hrest]
          simp [List.drop_left]
      rw [hdrop]
      simp
    · have hocc : occCount pat rest = 1 := by
        rw [occCount, if_neg hpre] at h
        exact h
      obtain ⟨pre, post, h1, h2⟩ := ih (pre0 ++ [c]) hocc
      refine ⟨c :: pre, post, by simp [h1], ?_⟩
      rw [replaceFirstAux, if_neg hpre, h2]
      simp

/-- C10 counterexample: taking "occurs exactly once" at face value (counting
occurrence positions), `aa` occurs twice in `aaa`, so the claim requires an
error result and an unchanged file — but `content.split(old).length - 1`
counts non-overlapping occurrences only, giving 1, and the tool rewrites the
file.  The claim's success case is also refuted on its own terms: `b` occurs
exactly once in `abc`, yet editing with `new_string = "$$"` stores `a$c`,
not the literal replacement `a$$c`, because `String.prototype.replace`
applies GetSubstitution to the replacement text.  And with an empty
`old_string` on an empty file the split count degenerates to `-1`, which
also passes both error guards, and the tool rewrites the file although the
count is not one. -/
theorem editFileTool_overlap_counterexample :
    claimOccurrences ("aa") ("aaa") = 2 ∧
    fsOverlap "f" = some ("aaa") ∧
    (editFileTool fsOverlap "f" "aa" "X").2 "f" = some ("Xa") ∧
    jsSplitCount ("aaa") ("aa") = 1 ∧
    claimOccurrences ("b") ("abc") = 1 ∧
    (editFileTool fsDollar "d" "b" "$$").2 "d" = some ("a$c") ∧
    (editFileTool fsDollar "d" "b" "$$").2 "d" ≠ some ("a$$c") ∧
    jsSplitCount ("") ("") = -1 ∧
    (editFileTool fsEmptyFile "g" "" "X").2 "g" = some ("X") := by
  refine ⟨by decide, by decide, ?_, ?_, by decide, ?_, ?_, by decide, ?_⟩
  · simp [editFileTool, fsOverlap, jsSplitCount, occCount, jsReplaceFirst,
      replaceFirstAux, getSubstitution]
  · simp [jsSplitCount, occCount]
  · simp [editFileTool, fsDollar, jsSplitCount, occCount, jsReplaceFirst,
      replaceFirstAux, getSubstitution]
  · simp [editFileTool, fsDollar, jsSplitCount, occCount, jsReplaceFirst,
      replaceFirstAux, getSubstitution]
  · simp [editFileTool, fsEmptyFile, jsSplitCount, jsReplaceFirst, getSubstitution]

/-- C10 (amended): for a non-empty `old_string`, with occurrences counted as
the non-overlapping left-to-right scan of `content.split(old_string)`:
if the file does not exist, or that count is zero or exceeds one, the tool
returns an `ERROR:` result and the file system is unchanged; when the count
is exactly one, the file is rewritten with that occurrence of `old_string`
replaced by the GetSubstitution-processed `new_string` — which is
`new_string` itself whenever it contains no dollar sign — and no other file
changes. -/
theorem editFileTool_unique_scan (fs : String → Option String) (path old new : String)
    (hold : old ≠ "") :
    (fs path = none →
      (∃ s, (editFileTool fs path old new).1 = ("ERROR: ") ++ s) ∧
      (editFileTool fs path old new).2 = fs) ∧
    (∀ content, fs path = some content → occCount old.data content.data ≠ 1 →
      (∃ s, (editFileTool fs path old new).1 = ("ERROR: ") ++ s) ∧
      (editFileTool fs path old new).2 = fs) ∧
    (∀ content, fs path = some content → occCount old.data content.data = 1 →
      (editFileTool fs path old new).2 path = some (jsReplaceFirst content old new) ∧
      (∀ q, q ≠ path → (editFileTool fs path old new).2 q = fs q) ∧
      (∃ pre post : List Char,
        content.data = pre ++ old.data ++ post ∧
        (jsReplaceFirst content old new).data
          = pre ++ getSubstitution old.data pre post new.data ++ post ∧
        (('$' : Char) ∉ new.data →
          (jsReplaceFirst content old new).data = pre ++ new.data ++ post))) := by
  have holdD : old.data ≠ [] := by
    intro hd
    exact hold (String.ext (by rw [hd]))
  refine ⟨?_, ?_, ?_⟩
  · intro h
    constructor
    · refine ⟨"File not found: " ++ path, ?_⟩
      simp only [editFileTool, h]
      rfl
    · simp only [editFileTool, h]
  · intro content hc hocc
    by_cases hz : occCount old.data content.data = 0
    · have hcz : jsSplitCount content old = 0 := by
        rw [jsSplitCount, if_neg hold, hz]
        rfl
      constructor
      · refine ⟨"old_string not found in " ++
          (path ++ ". Make sure it matches exactly (including whitespace/indentation)."),
          ?_⟩
        simp only [editFileTool, hc, hcz, if_pos]
        simp only [String.append_assoc]
        rfl
      · simp only [editFileTool, hc, hcz, if_pos]
    · have h2 : 2 ≤ occCount old.data content.data := by omega
      have hcz : ¬jsSplitCount content old = 0 := by
        rw [jsSplitCount, if_neg hold]
        intro hq
        rw [Int.natCast_eq_zero] at hq
        exact hz hq
      have hcg : 1 < jsSplitCount content old := by
        rw [jsSplitCount, if_neg hold]
        exact_mod_cast h2
      constructor
      · refine ⟨"old_string found " ++
          (toString (jsSplitCount content old) ++ (" times in " ++
            (path ++
              ". It must be unique. Include more surrounding context to narrow it down."))),
          ?_⟩
        simp only [editFileTool, hc, if_neg hcz, if_pos hcg]
        simp only [String.append_assoc]
        rfl
      · simp only [editFileTool, hc, if_neg hcz, if_pos hcg]
  · intro content hc hocc
    have hcount : jsSplitCount content old = 1 := by
      rw [jsSplitCount, if_neg hold, hocc]
      rfl
    have hcz : ¬jsSplitCount content old = 0 := by rw [hcount]; decide
    have hcg : ¬(1 : Int) < jsSplitCount content old := by rw [hcount]; decide
    have hred : (editFileTool fs path old new).2 =
        fun q => if q = path then some (jsReplaceFirst content old new) else fs q := by
      simp only [editFileTool, hc, if_neg hcz, if_neg hcg]
    refine ⟨?_, ?_, ?_⟩
    · rw [hred]
      simp
    · intro q hq
      rw [hred]
      simp [if_neg hq]
    · have hdec := replaceFirst_decomp old.data new.data holdD content.data [] hocc
      obtain ⟨pre, post, h1, h2⟩ := hdec
      rw [List.nil_append] at h2
      have hjs : (jsReplaceFirst content old new).data
          = pre ++ getSubstitution old.data pre post new.data ++ post := by
        rw [jsReplaceFirst, if_neg hold]
        exact h2
      refine ⟨pre, post, h1, hjs, ?_⟩
      intro hnd
      rw [hjs, getSubstitution_no_dollar old.data pre post new.data hnd]

theorem editFileTool_unique_scan_witness :
    ((∃ s, (editFileTool fsHello "nope" "o w" "O_W").1 = ("ERROR: ") ++ s) ∧
      (editFileTool fsHello "nope" "o w" "O_W").2 = fsHello) ∧
    ((∃ s, (editFileTool fsHello "h" "l" "L").1 = ("ERROR: ") ++ s) ∧
      (editFileTool fsHello "h" "l" "L").2 = fsHello) ∧
    ((editFileTool fsHello "h" "o w" "O_W").2 "h"
        = some (jsReplaceFirst "hello world" "o w" "O_W") ∧
      (∀ q, q ≠ "h" → (editFileTool fsHello "h" "o w" "O_W").2 q = fsHello q) ∧
      (∃ pre post : List Char,
        ("hello world" : String).data = pre ++ ("o w" : String).data ++ post ∧
        (jsReplaceFirst "hello world" "o w" "O_W").data
          = pre ++ getSubstitution ("o w" : String).data pre post
              ("O_W" : String).data ++ post ∧
        (('$' : Char) ∉ ("O_W" : String).data →
          (jsReplaceFirst "hello world" "o w" "O_W").data
            = pre ++ ("O_W" : String).data ++ post))) :=
  ⟨(editFileTool_unique_scan fsHello "nope" "o w" "O_W" (by decide)).1 rfl,
   (editFileTool_unique_scan fsHello "h" "l" "L" (by decide)).2.1 "hello world" rfl
     (by simp [occCount]),
   (editFileTool_unique_scan fsHello "h" "o w" "O_W" (by decide)).2.2 "hello world" rfl
     (by simp [occCount])⟩
